import Mathlib

/-!
Verification of the HTML-table normalization pipeline (`Main.py`).

The program reads tables extracted from HTML files as ragged grids of
text cells, cleans each grid (`clean_tables`), and appends long-format
records to a CSV sink (`store_data`).  We embed the cleaning pipeline
shallowly: a pandas `DataFrame` becomes a `DF` (a column count plus
labelled rows of optional strings, `none` playing the role of `np.nan`);
every pandas operation used by the source is translated to an explicit
list transformation; operations that can raise (`iloc` out of bounds,
`drop` with a missing label, mismatched row assignment) return `Option`.
-/

namespace HtmlTables

/-- A cell: `some s` is a text value, `none` models `np.nan` (absent). -/
abbrev Cell := Option String

/-- A pandas `DataFrame` of text cells: a fixed column count and rows,
each row carrying its index label (pandas row index) and its cells. -/
structure DF where
  ncols : Nat
  rows : List (Nat × List Cell)
deriving DecidableEq, Inhabited, Repr

/-- Python `str.isspace` characters relevant to `str.strip()`. -/
def pyIsSpace (c : Char) : Bool :=
  c = ' ' || c = '\t' || c = '\n' || c = '\r' || c = '\x0b' || c = '\x0c'

/-- Python `str.strip()`: drop leading and trailing whitespace. -/
def pyStrip (s : String) : String :=
  ⟨((s.data.dropWhile pyIsSpace).reverse.dropWhile pyIsSpace).reverse⟩

/-- Python `str(cell)`: a string renders as itself, `np.nan` renders as
the text `"nan"`. -/
def strCell (c : Cell) : String :=
  match c with
  | some s => s
  | none => "nan"

/-- Python `s.replace('(', '-')`: replace every `'('` by `'-'`. -/
def pyReplaceParen (s : String) : String :=
  ⟨s.data.map (fun c => if c = '(' then '-' else c)⟩

/-- Python `'(' in s`. -/
def hasParen (s : String) : Bool :=
  s.data.any (fun c => c = '(')

/-- `pd.DataFrame(table_data)` on a ragged list of string rows: rows are
padded with `NaN` to the maximum row length; the row index is 0,1,2,…. -/
def maxLen (g : List (List String)) : Nat :=
  g.foldr (fun r m => max r.length m) 0

def toDF (g : List (List String)) : DF :=
  { ncols := maxLen g
    rows := g.enum.map
      (fun p => (p.1, p.2.map some ++ List.replicate (maxLen g - p.2.length) (none : Cell))) }

/-- Line 133: `df.astype(object).replace("", np.nan)`. -/
def replaceEmpty (df : DF) : DF :=
  { df with
    rows := df.rows.map
      (fun p => (p.1, p.2.map (fun c => if c = some "" then none else c))) }

/-- Keep the cells of a row at the column positions marked `true`. -/
def keepByMask (mask : List Bool) (r : List Cell) : List Cell :=
  ((mask.zip r).filter (fun q => q.1)).map (fun q => q.2)

/-- Which column positions carry at least one non-absent cell. -/
def colMask (df : DF) : List Bool :=
  (List.range df.ncols).map (fun j => df.rows.any (fun p => (p.2.getD j none).isSome))

/-- Lines 135/166: `df.dropna(axis=1, how="all")` — drop all-NaN columns. -/
def dropColsAllNan (df : DF) : DF :=
  { ncols := (colMask df).count true
    rows := df.rows.map (fun p => (p.1, keepByMask (colMask df) p.2)) }

/-- Line 137: `df.dropna(axis=0, how="all")` — drop all-NaN rows
(row labels are kept). -/
def dropRowsAllNan (df : DF) : DF :=
  { df with rows := df.rows.filter (fun p => p.2.any (fun c => c.isSome)) }

/-- `reset_index(drop=True)`: relabel rows 0,1,2,…. -/
def resetRows (rs : List (Nat × List Cell)) : List (Nat × List Cell) :=
  rs.enum.map (fun q => (q.1, q.2.2))

/-- `df.iloc[1:].reset_index(drop=True)`. -/
def dropFirstReset (df : DF) : DF :=
  { df with rows := resetRows df.rows.tail }

/-- Lines 54-68, `title_extraction`: read `df.iloc[0, 1]` (an `IndexError`
— outer `none` — when there is no row 0 or fewer than two columns) and
return the cell's text when it is non-NaN and non-empty, else `"No Title"`. -/
def cellAt01 (df : DF) : Option Cell :=
  df.rows.head?.bind (fun p => if 1 < df.ncols then some (p.2.getD 1 none) else none)

def titleOf (df : DF) : Option String :=
  (cellAt01 df).map (fun c =>
    match c with
    | some t => if t = "" then "No Title" else t
    | none => "No Title")

/-- Lines 139-142: extract the title; when a title was found, drop row 0
and reset the index. -/
def titleStep (df : DF) : Option (String × DF) :=
  (titleOf df).map (fun t => (t, if t ≠ "No Title" then dropFirstReset df else df))

/-- Lines 146-160, body of the merge pass for one row at one column pair
`(j, j+1)`, in source order: the `''`→NaN fix-up, the `"$"` clearing
(whose re-assignment of cell `j+1` to itself is a no-op), and the
percent merge `str(cell_j) + " %"` with the `'('`→`'-'` replacement. -/
def mergeStep (r : List Cell) (j : Nat) : List Cell :=
  let r1 := if r.getD j none = some "" then r.set j none else r
  let r2 := if pyStrip (strCell (r1.getD j none)) = "$" then r1.set j none else r1
  let c1 := pyStrip (strCell (r2.getD (j + 1) none))
  if c1 = "%" ∨ c1 = "%)" then
    let s := strCell (r2.getD j none) ++ " %"
    let r3 := (r2.set j (some s)).set (j + 1) none
    if hasParen s then r3.set j (some (pyReplaceParen s)) else r3
  else r2

/-- One row of the merge pass: `for j in range(len(df.columns) - 1)`. -/
def mergeRow (ncols : Nat) (r : List Cell) : List Cell :=
  (List.range (ncols - 1)).foldl mergeStep r

/-- Lines 146-160: the whole merge pass (rows are independent). -/
def mergeAll (df : DF) : DF :=
  { df with rows := df.rows.map (fun p => (p.1, mergeRow df.ncols p.2)) }

/-- Line 164: `[np.nan]*row.isna().sum() + row.dropna().tolist()` —
move the absent cells of a row to the front. -/
def leftCompactRow (r : List Cell) : List Cell :=
  List.replicate (r.countP (fun c => c.isNone)) (none : Cell) ++
    r.filter (fun c => c.isSome)

def leftCompactAll (df : DF) : DF :=
  { df with rows := df.rows.map (fun p => (p.1, leftCompactRow p.2)) }

/-- Line 190: `row.dropna().tolist() + [np.nan]*row.isna().sum()` —
move the absent cells of a row to the back. -/
def rightCompactRow (r : List Cell) : List Cell :=
  r.filter (fun c => c.isSome) ++
    List.replicate (r.countP (fun c => c.isNone)) (none : Cell)

def rightCompactAll (df : DF) : DF :=
  { df with rows := df.rows.map (fun p => (p.1, rightCompactRow p.2)) }

/-- Lines 168-185, the single-value-row repair.  Reads row 0 (`IndexError`
when absent); when row 0 has exactly one non-NaN value: reads row 1
(`IndexError` when absent), builds `row1.dropna() ++ [single]`, pads it to
the column count (`ValueError` — `none` — when it is already longer),
assigns it at position 1, then executes `df.drop(index=i)` where `i` is
the stale merge-loop variable, i.e. the label `len(df) - 1` (`KeyError`
— `none` — when no row carries that label), resets the index and drops
the new row 0. -/
def repairStep (df : DF) : Option DF :=
  match df.rows.head? with
  | none => none
  | some r0 =>
    match r0.2.filter (fun c => c.isSome) with
    | [single] =>
      match df.rows.get? 1 with
      | none => none
      | some r1 =>
        let merged := r1.2.filter (fun c => c.isSome) ++ [single]
        if merged.length ≤ df.ncols then
          let rows1 := df.rows.set 1
            (r1.1, merged ++ List.replicate (df.ncols - merged.length) (none : Cell))
          let i := rows1.length - 1
          if rows1.any (fun p => p.1 = i) then
            some (dropFirstReset
              { df with rows := resetRows (rows1.filter (fun p => p.1 ≠ i)) })
          else none
        else none
    | _ => some df

/-- Line 187: `stored_columns = df.iloc[0]`. -/
def headerOf (df : DF) : Option (List Cell) :=
  df.rows.head?.map (fun p => p.2)

/-- Lines 133-142 of `clean_tables`: blank normalization, empty column
and empty row removal. -/
def preCleanDF (df : DF) : DF :=
  dropRowsAllNan (dropColsAllNan (replaceEmpty df))

def preClean (g : List (List String)) : DF :=
  preCleanDF (toDF g)

/-- The state of `clean_tables` just before the repair step: title
handling, merge pass, left-compaction and column trim (lines 133-166). -/
def midClean (g : List (List String)) : Option DF :=
  (titleStep (preClean g)).map (fun x => dropColsAllNan (leftCompactAll (mergeAll x.2)))

/-- `clean_tables` up to line 193: the title, the captured header row
(`stored_columns`) and the final data rows. -/
def cleanDF (df0 : DF) : Option (String × List Cell × DF) :=
  match titleStep (preCleanDF df0) with
  | none => none
  | some (title, df2) =>
    match repairStep (dropColsAllNan (leftCompactAll (mergeAll df2))) with
    | none => none
    | some df4 =>
      match headerOf df4 with
      | none => none
      | some cols => some (title, cols, dropFirstReset (rightCompactAll df4))

/-- The normalized table handed to emission: title, header cells
(`stored_columns`, assigned as `df.columns`), and the data rows. -/
structure NormalizedTable where
  title : String
  columns : List Cell
  rows : List (List Cell)
deriving DecidableEq, Repr

def cleanTables (g : List (List String)) : Option NormalizedTable :=
  (cleanDF (toDF g)).map (fun x => ⟨x.1, x.2.1, x.2.2.rows.map (fun p => p.2)⟩)

/-- One output record of `store_data`. -/
structure TidyRecord where
  filename : String
  label : Cell
  tablename : String
  columnName : Cell
  value : Cell
deriving DecidableEq, Repr

/-- The effect of `result_df.to_csv(output_file, mode=mode, header=first_run)`:
the write mode (`'w'` truncates, `'a'` appends), whether a header line is
written, and the records. -/
structure StoreResult where
  mode : Char
  header : Bool
  records : List TidyRecord
deriving DecidableEq, Repr

/-- Records emitted for one data row: `label = df.iloc[row, 0]`, one
record per column index in `range(1, len(df.columns))`. -/
def rowRecords (fn tl : String) (cols : List Cell) (r : List Cell) : List TidyRecord :=
  ((List.range cols.length).drop 1).map
    (fun c => ⟨fn, r.getD 0 none, tl, cols.getD c none, r.getD c none⟩)

/-- Lines 71-107, `store_data`: melt the cleaned table into records and
write them (`IndexError` — `none` — when a label is read from a
zero-column frame). -/
def storeData (fn tl : String) (cols : List Cell) (df : DF) (first : Bool) :
    Option StoreResult :=
  if df.rows.length ≠ 0 ∧ df.ncols = 0 then none
  else some
    { mode := if first then 'w' else 'a'
      header := first
      records := df.rows.flatMap (fun p => rowRecords fn tl cols p.2) }

/-- `clean_tables` including the `store_data` call (lines 110-195). -/
def cleanEmit (fn : String) (g : List (List String)) (first : Bool) :
    Option StoreResult :=
  match cleanDF (toDF g) with
  | none => none
  | some (title, cols, df) => storeData fn title cols df first

/-- The outcome of the driver loop (lines 214-218): the calls made to
`clean_tables` with the `first_run` flag each received and each call's
emission, and whether the run aborted on an uncaught exception. -/
structure RunResult where
  calls : List (Bool × Option StoreResult)
  aborted : Bool
deriving DecidableEq, Repr

def driveAux (first : Bool) : List (String × List (List String)) → RunResult
  | [] => ⟨[], false⟩
  | (fn, g) :: rest =>
    match cleanEmit fn g first with
    | none => ⟨[(first, none)], true⟩
    | some r =>
      let rr := driveAux false rest
      ⟨(first, some r) :: rr.calls, rr.aborted⟩

/-- The driver: `first_run = True`, then `first_run = False` after each
successful table; an exception aborts the run. -/
def drive (ts : List (String × List (List String))) : RunResult :=
  driveAux true ts

/-- The end-to-end grid of the spec's scenario. -/
def qGrid : List (List String) :=
  [["", "Q1 Report"], ["Revenue", "$", "100"], ["Growth", "12", "%"]]

/-- A grid that is entirely blank: it loses all rows during cleaning. -/
def emptyGrid : List (List String) := [["", ""]]

/-- A grid exercising the single-value-row repair: after the title `"T"`
is stripped and the rows are left-compacted, row 0 holds the lone value
`"Solo"`, row 1 is `[NaN, "a", "b"]` and two full rows follow. -/
def g2grid : List (List String) :=
  [["", "T", ""], ["", "", "Solo"], ["a", "b", ""], ["c", "d", "e"], ["f", "g", "h"]]

/-- A cleaned frame whose row-0/column-1 cell is the text `"No Title"`,
colliding with the sentinel. -/
def dfNT : DF := preClean [["x", "No Title"], ["a", "b"]]

/-- A cleaned frame with an ordinary title text in row 0, column 1. -/
def dfHdr : DF := preClean [["a", "Hdr"], ["x", "y"]]

/-- The emission the pipeline actually produces for `qGrid`. -/
def qResult : StoreResult :=
  ⟨'w', true, [⟨"doc.html", some "Growth", "Q1 Report", some "100", some "12 %"⟩]⟩

/-!
A small object-identity model for the mutation claim.  Python names are
references into a heap of `DataFrame` objects; `df_origin.copy(deep=True)`
allocates a fresh object, and every subsequent cleaning operation of
`clean_tables` reads and writes only through the `df` reference.
-/

/-- The interpreter state: a heap of frames, the reference held by the
caller's `df_origin`, and the reference held by the local `df`. -/
structure PyState where
  heap : List DF
  originRef : Nat
  dfRef : Nat
deriving DecidableEq, Repr

/-- Run one cleaning operation through the `df` reference: read the
object `df` points to, apply the operation, store the result back. -/
def mutate (f : DF → Option DF) (s : PyState) : Option PyState :=
  (f (s.heap.getD s.dfRef default)).map
    (fun d => { s with heap := s.heap.set s.dfRef d })

/-- Line 130, `df = df_origin.copy(deep=True)`: allocate a fresh object
holding a copy of the origin and point `df` at it. -/
def copyDeep (s : PyState) : PyState :=
  ⟨s.heap ++ [s.heap.getD s.originRef default], s.originRef, s.heap.length⟩

/-- The df-transforming steps of `clean_tables` in source order
(lines 133-193); the title and header reads are kept as stages because
they can raise, though they write nothing. -/
def stageList : List (DF → Option DF) :=
  [fun df => some (replaceEmpty df),
   fun df => some (dropColsAllNan df),
   fun df => some (dropRowsAllNan df),
   fun df => (titleStep df).map (fun x => x.2),
   fun df => some (mergeAll df),
   fun df => some (leftCompactAll df),
   fun df => some (dropColsAllNan df),
   repairStep,
   fun df => (headerOf df).map (fun _ => df),
   fun df => some (rightCompactAll df),
   fun df => some (dropFirstReset df)]

def runStages (l : List (DF → Option DF)) (s : PyState) : Option PyState :=
  List.foldlM (fun st f => mutate f st) s l

/-- The caller's state on entry: the heap holds only `df_origin`, and
both names refer to it. -/
def initState (df : DF) : PyState := ⟨[df], 0, 0⟩

/-- `clean_tables` over the heap: deep-copy, then run every stage. -/
def cleanTablesState (s : PyState) : Option PyState :=
  runStages stageList (copyDeep s)

/-- Rectangularity: every row of a frame has exactly `ncols` cells. -/
def Rect (df : DF) : Prop := ∀ p ∈ df.rows, p.2.length = df.ncols

/-! ## Helper lemmas -/

theorem countP_none_replicate (k : Nat) :
    (List.replicate k (none : Cell)).countP (fun c => c.isNone) = k := by
  induction k with
  | zero => rfl
  | succ n ih => simp [List.replicate_succ, List.countP_cons, ih]

theorem filter_some_replicate (k : Nat) :
    (List.replicate k (none : Cell)).filter (fun c => c.isSome) = [] := by
  induction k with
  | zero => rfl
  | succ n ih => simp [List.replicate_succ, List.filter_cons, ih]

theorem countP_none_filter_some (r : List Cell) :
    (r.filter (fun c => c.isSome)).countP (fun c => c.isNone) = 0 := by
  rw [List.countP_eq_zero]
  intro c hc
  have hs := (List.mem_filter.1 hc).2
  cases c <;> simp_all

theorem filter_some_idem (r : List Cell) :
    (r.filter (fun c => c.isSome)).filter (fun c => c.isSome) =
      r.filter (fun c => c.isSome) :=
  List.filter_eq_self.mpr (fun _ ha => (List.mem_filter.1 ha).2)

theorem countP_none_add_filter_length (r : List Cell) :
    r.countP (fun c => c.isNone) + (r.filter (fun c => c.isSome)).length = r.length := by
  induction r with
  | nil => rfl
  | cons c cs ih => cases c <;> simp [List.countP_cons, List.filter_cons] <;> omega

theorem leftCompactRow_length (r : List Cell) :
    (leftCompactRow r).length = r.length := by
  unfold leftCompactRow
  rw [List.length_append, List.length_replicate, countP_none_add_filter_length]

theorem rightCompactRow_length (r : List Cell) :
    (rightCompactRow r).length = r.length := by
  unfold rightCompactRow
  rw [List.length_append, List.length_replicate, Nat.add_comm,
    countP_none_add_filter_length]

/-- A present cell survives left-compaction. -/
theorem mem_leftCompactRow_of_some {r : List Cell} {v : String}
    (h : some v ∈ r) : some v ∈ leftCompactRow r := by
  unfold leftCompactRow
  exact List.mem_append_right _ (List.mem_filter.2 ⟨h, rfl⟩)

/-- `s.replace('(', '-')` does nothing when `s` has no `'('`. -/
theorem pyReplaceParen_of_not_hasParen {s : String} (h : hasParen s = false) :
    pyReplaceParen s = s := by
  unfold pyReplaceParen
  unfold hasParen at h
  have hall : ∀ c ∈ s.data, c ≠ '(' := by
    intro c hc heq
    rw [List.any_eq_false] at h
    exact absurd (by simpa [heq]) (by simpa using h c hc)
  have : s.data.map (fun c => if c = '(' then '-' else c) = s.data.map id :=
    List.map_congr_left (fun c hc => by simp [hall c hc])
  rw [this, List.map_id]

/-- `getD` returning a non-default `some` implies the index is in range. -/
theorem lt_length_of_getD_some {r : List Cell} {n : Nat} {v : String}
    (h : r.getD n none = some v) : n < r.length := by
  by_contra hge
  rw [List.getD_eq_default r none (Nat.le_of_not_lt hge)] at h
  cases h

/-! ## C8 -/

/-- C8: left-compaction (move every absent cell of a row to the front,
present cells keeping their relative order — line 164 of `Main.py`) is
idempotent: applying it twice equals applying it once. -/
theorem c8_left_compaction_idempotent (r : List Cell) :
    leftCompactRow (leftCompactRow r) = leftCompactRow r := by
  conv_lhs => rw [leftCompactRow, leftCompactRow]
  rw [List.countP_append, List.filter_append, countP_none_replicate,
    filter_some_replicate, countP_none_filter_some, filter_some_idem,
    List.nil_append, Nat.add_zero, ← leftCompactRow]

theorem strCell_some (s : String) : strCell (some s) = s := rfl

theorem strCell_none : strCell none = "nan" := rfl

/-! ## C5 and C10: the percent merge -/

/-- C5: in the merge pass, at a column pair `(j, j+1)` where cell `j`
holds ordinary text (non-empty, not the bare `"$"` token) and cell `j+1`
is exactly `"%"` or `"%)"`, the step appends the literal suffix `" %"` to
cell `j`'s text, clears cell `j+1` to absent, and replaces every `'('` in
the resulting text by `'-'`; in particular the row
`["Decline", "(5", "%)"]` normalizes its value cell to `"-5 %"`. -/
theorem c5_percent_merge (r : List Cell) (j : Nat) (s : String)
    (hcell : r.getD j none = some s) (hne : s ≠ "") (hnd : pyStrip s ≠ "$")
    (hnext : r.getD (j + 1) none = some "%" ∨ r.getD (j + 1) none = some "%)") :
    mergeStep r j = (r.set j (some (pyReplaceParen (s ++ " %")))).set (j + 1) none ∧
    mergeRow 3 [some "Decline", some "(5", some "%)"] =
      [some "Decline", some "-5 %", none] := by
  refine ⟨?_, by decide⟩
  unfold mergeStep
  simp only [hcell, Option.some.injEq, if_neg hne, strCell_some, if_neg hnd]
  have hcond : pyStrip (strCell (r.getD (j + 1) none)) = "%" ∨
      pyStrip (strCell (r.getD (j + 1) none)) = "%)" := by
    rcases hnext with h | h <;> rw [h] <;> [left; right] <;> decide
  rw [if_pos hcond]
  by_cases hp : hasParen (s ++ " %")
  · rw [if_pos hp, List.set_comm _ _ _ (Nat.succ_ne_self j), List.set_set]
  · rw [if_neg hp,
      pyReplaceParen_of_not_hasParen (Bool.eq_false_iff.2 hp)]

/-- C5 witness: the percent merge applied to the row `["12", "%"]`. -/
theorem c5_percent_merge_witness :
    mergeStep [some "12", some "%"] 0 =
      (([some "12", some "%"] : List Cell).set 0
        (some (pyReplaceParen ("12" ++ " %")))).set 1 none ∧
    mergeRow 3 [some "Decline", some "(5", some "%)"] =
      [some "Decline", some "-5 %", none] :=
  c5_percent_merge [some "12", some "%"] 0 "12" rfl (by decide) (by decide)
    (Or.inl rfl)

/-- C10: in the merge pass, when cell `j` is absent and cell `j+1` is
exactly `"%"` or `"%)"`, `str(np.nan) + " %"` fabricates the present text
`"nan %"` in cell `j` (cell `j+1` is cleared), and this value survives
left-compaction as an ordinary present cell. -/
theorem c10_nan_percent (r : List Cell) (j : Nat)
    (hcell : r.getD j none = none)
    (hnext : r.getD (j + 1) none = some "%" ∨ r.getD (j + 1) none = some "%)") :
    mergeStep r j = (r.set j (some "nan %")).set (j + 1) none ∧
    some "nan %" ∈ leftCompactRow (mergeStep r j) := by
  have hlt : j < r.length := by
    rcases hnext with h | h <;>
      exact Nat.lt_of_succ_lt_succ (Nat.lt_succ_of_lt (lt_length_of_getD_some h))
  have hmain : mergeStep r j = (r.set j (some "nan %")).set (j + 1) none := by
    unfold mergeStep
    dsimp only []
    rw [if_neg (show ¬ (r.getD j none = some "") by rw [hcell]; simp)]
    rw [if_neg (show ¬ (pyStrip (strCell (r.getD j none)) = "$") by
      rw [hcell]; decide)]
    have hcond : pyStrip (strCell (r.getD (j + 1) none)) = "%" ∨
        pyStrip (strCell (r.getD (j + 1) none)) = "%)" := by
      rcases hnext with h | h <;> rw [h] <;> [left; right] <;> decide
    rw [if_pos hcond,
      show strCell (r.getD j none) ++ " %" = "nan %" by rw [hcell]; decide,
      if_neg (by decide : ¬ (hasParen "nan %" = true))]
  refine ⟨hmain, ?_⟩
  rw [hmain]
  apply mem_leftCompactRow_of_some
  refine @List.get?_mem _ _ j _ ?_
  rw [List.get?_set_ne _ _ (Nat.succ_ne_self j), List.get?_set_eq_of_lt _ hlt]

/-- C10 witness: the fabricated `"nan %"` on the row `[NaN, "%"]`. -/
theorem c10_nan_percent_witness :
    mergeStep [none, some "%"] 0 =
      (([none, some "%"] : List Cell).set 0 (some "nan %")).set 1 none ∧
    some "nan %" ∈ leftCompactRow (mergeStep [none, some "%"] 0) :=
  c10_nan_percent [none, some "%"] 0 rfl (Or.inl rfl)

/-! ## Rectangularity invariants, leading to C6 -/

theorem maxLen_le {g : List (List String)} {r : List String} (h : r ∈ g) :
    r.length ≤ maxLen g := by
  induction g with
  | nil => cases h
  | cons x xs ih =>
    rcases List.mem_cons.1 h with rfl | h
    · exact Nat.le_max_left _ _
    · exact Nat.le_trans (ih h) (Nat.le_max_right _ _)

theorem resetRows_mem {rs : List (Nat × List Cell)} {p : Nat × List Cell}
    (h : p ∈ resetRows rs) : ∃ q ∈ rs, p.2 = q.2 := by
  unfold resetRows at h
  rcases List.mem_map.1 h with ⟨q, hq, rfl⟩
  refine ⟨q.2, ?_, rfl⟩
  rw [List.enum_eq_zip_range] at hq
  have hq2 : (q.1, q.2) ∈ (List.range rs.length).zip rs := hq
  exact (List.of_mem_zip hq2).2

theorem rect_toDF (g : List (List String)) : Rect (toDF g) := by
  intro p hp
  unfold toDF at hp ⊢
  rcases List.mem_map.1 hp with ⟨q, hq, rfl⟩
  rw [List.enum_eq_zip_range] at hq
  have hmem : q.2 ∈ g := (List.of_mem_zip hq).2
  simp only [List.length_append, List.length_map, List.length_replicate]
  exact Nat.add_sub_cancel' (maxLen_le hmem)

theorem rect_replaceEmpty {df : DF} (h : Rect df) : Rect (replaceEmpty df) := by
  intro p hp
  unfold replaceEmpty at hp
  rcases List.mem_map.1 hp with ⟨q, hq, rfl⟩
  simpa using h q hq

theorem keepByMask_length : ∀ (mask : List Bool) (r : List Cell),
    mask.length = r.length → (keepByMask mask r).length = mask.count true := by
  intro mask
  induction mask with
  | nil => intro r _; rfl
  | cons b bs ih =>
    intro r h
    cases r with
    | nil => cases h
    | cons c cs =>
      have hlen : bs.length = cs.length := Nat.succ_injective h
      cases b <;>
        simp [keepByMask, List.filter_cons, List.count_cons, ← ih cs hlen, keepByMask]

theorem colMask_length (df : DF) : (colMask df).length = df.ncols := by
  unfold colMask
  rw [List.length_map, List.length_range]

theorem rect_dropColsAllNan {df : DF} (h : Rect df) : Rect (dropColsAllNan df) := by
  intro p hp
  unfold dropColsAllNan at hp ⊢
  rcases List.mem_map.1 hp with ⟨q, hq, rfl⟩
  exact keepByMask_length _ _ (by rw [colMask_length, h q hq])

theorem rect_dropRowsAllNan {df : DF} (h : Rect df) : Rect (dropRowsAllNan df) := by
  intro p hp
  exact h p (List.mem_of_mem_filter hp)

theorem rect_dropFirstReset {df : DF} (h : Rect df) : Rect (dropFirstReset df) := by
  intro p hp
  unfold dropFirstReset at hp
  rcases resetRows_mem hp with ⟨q, hq, he⟩
  rw [he]
  exact h q (List.mem_of_mem_tail hq)

theorem mergeStep_length (r : List Cell) (j : Nat) :
    (mergeStep r j).length = r.length := by
  unfold mergeStep
  dsimp only []
  split_ifs <;> simp [List.length_set]

theorem mergeRow_length (ncols : Nat) (r : List Cell) :
    (mergeRow ncols r).length = r.length := by
  unfold mergeRow
  generalize List.range (ncols - 1) = js
  induction js generalizing r with
  | nil => rfl
  | cons j js ih => rw [List.foldl_cons, ih, mergeStep_length]

theorem rect_mergeAll {df : DF} (h : Rect df) : Rect (mergeAll df) := by
  intro p hp
  unfold mergeAll at hp
  rcases List.mem_map.1 hp with ⟨q, hq, rfl⟩
  rw [mergeRow_length]
  exact h q hq

theorem rect_leftCompactAll {df : DF} (h : Rect df) : Rect (leftCompactAll df) := by
  intro p hp
  unfold leftCompactAll at hp
  rcases List.mem_map.1 hp with ⟨q, hq, rfl⟩
  rw [leftCompactRow_length]
  exact h q hq

theorem rect_rightCompactAll {df : DF} (h : Rect df) : Rect (rightCompactAll df) := by
  intro p hp
  unfold rightCompactAll at hp
  rcases List.mem_map.1 hp with ⟨q, hq, rfl⟩
  rw [rightCompactRow_length]
  exact h q hq

theorem rect_titleStep {df : DF} {t : String} {df2 : DF} (h : Rect df)
    (ht : titleStep df = some (t, df2)) : Rect df2 := by
  unfold titleStep at ht
  rcases Option.map_eq_some'.1 ht with ⟨t0, _, he⟩
  have h2 : df2 = if t0 ≠ "No Title" then dropFirstReset df else df := congrArg Prod.snd he.symm
  rw [h2]
  split
  · exact rect_dropFirstReset h
  · exact h

theorem rect_repairStep {df df' : DF} (h : Rect df)
    (hr : repairStep df = some df') : Rect df' := by
  unfold repairStep at hr
  split at hr
  · cases hr
  · split at hr
    · split at hr
      · cases hr
      · dsimp only [] at hr
        split at hr
        · rename_i hle
          split at hr
          · cases hr
            apply rect_dropFirstReset
            intro p hp
            rcases resetRows_mem hp with ⟨q, hq, he⟩
            rw [he]
            rcases List.mem_or_eq_of_mem_set (List.mem_of_mem_filter hq) with hq2 | hq2
            · exact h q hq2
            · rw [hq2]
              simp only [List.length_append, List.length_replicate]
              rw [List.length_append] at hle
              omega
          · cases hr
        · cases hr
    · cases hr
      exact h

theorem headerOf_length {df : DF} {cols : List Cell} (h : Rect df)
    (hc : headerOf df = some cols) : cols.length = df.ncols := by
  unfold headerOf at hc
  rcases Option.map_eq_some'.1 hc with ⟨p, hp, rfl⟩
  exact h p (List.mem_of_mem_head? hp)

theorem cleanDF_rect {df0 : DF} (h0 : Rect df0) {title : String}
    {cols : List Cell} {dff : DF}
    (h : cleanDF df0 = some (title, cols, dff)) :
    Rect dff ∧ cols.length = dff.ncols := by
  unfold cleanDF at h
  split at h
  · cases h
  · rename_i t df2 ht
    split at h
    · cases h
    · rename_i df4 hrep
      split at h
      · cases h
      · rename_i cols0 hcols
        cases h
        have h1 : Rect (preCleanDF df0) :=
          rect_dropRowsAllNan (rect_dropColsAllNan (rect_replaceEmpty h0))
        have h2 : Rect df2 := rect_titleStep h1 ht
        have h3 : Rect (dropColsAllNan (leftCompactAll (mergeAll df2))) :=
          rect_dropColsAllNan (rect_leftCompactAll (rect_mergeAll h2))
        have h4 : Rect df4 := rect_repairStep h3 hrep
        refine ⟨rect_dropFirstReset (rect_rightCompactAll h4), ?_⟩
        have hlen := headerOf_length h4 hcols
        exact hlen

/-- C6: every normalized table the pipeline produces is rectangular —
each data row has exactly as many cells as the captured header
(`stored_columns`), positionally aligned. -/
theorem c6_datarow_length (g : List (List String)) (t : NormalizedTable)
    (h : cleanTables g = some t) : ∀ r ∈ t.rows, r.length = t.columns.length := by
  intro r hr
  unfold cleanTables at h
  rcases Option.map_eq_some'.1 h with ⟨⟨title, cols, dff⟩, hc, rfl⟩
  rcases List.mem_map.1 hr with ⟨p, hp, rfl⟩
  rcases cleanDF_rect (rect_toDF g) hc with ⟨hrect, hcols⟩
  rw [hrect p hp, hcols]

/-- C6 witness: the invariant evaluated on the spec's scenario grid. -/
theorem c6_datarow_length_witness :
    ([some "Growth", some "12 %"] : List Cell).length =
      (NormalizedTable.mk "Q1 Report" [some "Revenue", some "100"]
        [[some "Growth", some "12 %"]]).columns.length :=
  c6_datarow_length qGrid
    (NormalizedTable.mk "Q1 Report" [some "Revenue", some "100"]
      [[some "Growth", some "12 %"]])
    (by decide) [some "Growth", some "12 %"] (by decide)

/-! ## C4: the title rule -/

/-- C4 (amended): when the cell at row 0, column 1 of the cleaned grid is
readable, then (a) if it holds non-absent, non-empty text *other than the
exact sentinel string `"No Title"`*, the title is that text and row 0 is
dropped; (b) if it is absent, empty, or exactly `"No Title"`, the title is
the sentinel `"No Title"` and all rows are retained. -/
theorem c4_title_rule (df : DF) (c : Cell) (h : cellAt01 df = some c) :
    (∀ t, c = some t → t ≠ "" → t ≠ "No Title" →
      titleStep df = some (t, dropFirstReset df)) ∧
    ((c = none ∨ c = some "" ∨ c = some "No Title") →
      titleStep df = some ("No Title", df)) := by
  constructor
  · intro t hc hne hnt
    subst hc
    simp [titleStep, titleOf, h, hne, hnt]
  · rintro (rfl | rfl | rfl) <;> simp [titleStep, titleOf, h]

/-- C4 witness: an ordinary title text is extracted and row 0 dropped. -/
theorem c4_title_rule_witness :
    titleStep dfHdr = some ("Hdr", dropFirstReset dfHdr) :=
  (c4_title_rule dfHdr (some "Hdr") (by decide)).1 "Hdr" rfl (by decide) (by decide)

/-- C4 counterexample: a grid whose row-0/column-1 cell holds the
non-absent, non-empty text `"No Title"`; the claim says that text becomes
the title *and row 0 is dropped entirely*, but the code keeps all rows
(the title equality check against the sentinel misfires). -/
theorem c4_counterexample :
    cellAt01 dfNT = some (some "No Title") ∧ ("No Title" : String) ≠ "" ∧
    titleStep dfNT = some ("No Title", dfNT) ∧ dfNT.rows.length = 2 :=
  ⟨by decide, by decide, by decide, by decide⟩

/-! ## C1: the end-to-end scenario -/

/-- C1 counterexample: on the spec's scenario grid the pipeline emits
exactly **one** TidyRecord, not two — the `["Revenue", ..]` row is
captured as the header row of the header-free grid, so only the
`["Growth", ..]` row remains as data. -/
theorem c1_counterexample :
    cleanEmit "doc.html" qGrid true = some qResult ∧ qResult.records.length = 1 :=
  ⟨by decide, rfl⟩

/-- C1 (amended): normalize+emit on
`[["", "Q1 Report"], ["Revenue", "$", "100"], ["Growth", "12", "%"]]`
with `firstWrite = true` produces title `"Q1 Report"`, header
`["Revenue", "100"]`, and exactly one record, with label `"Growth"`,
column name `"100"` and value `"12 %"`. -/
theorem c1_scenario :
    cleanTables qGrid =
      some ⟨"Q1 Report", [some "Revenue", some "100"], [[some "Growth", some "12 %"]]⟩ ∧
    cleanEmit "doc.html" qGrid true =
      some ⟨'w', true,
        [⟨"doc.html", some "Growth", "Q1 Report", some "100", some "12 %"⟩]⟩ :=
  ⟨by decide, by decide⟩

/-! ## C2: the single-value-row repair -/

/-- C2: what the repair actually does on a singleton row 0.  Before the
repair, `g2grid` has rows `[NaN,NaN,"Solo"]`, `[NaN,"a","b"]`,
`["c","d","e"]`, `["f","g","h"]`.  The code merges `["a","b","Solo"]`
into position 1, then `df.drop(index=i)` with the stale merge-loop
variable `i = len(df)-1 = 3` deletes the **last** row `["f","g","h"]`
(not the singleton, which `iloc[1:]` removes afterwards), so the merged
row survives and becomes the header: the final table has header
`["a","b","Solo"]` and single data row `["c","d","e"]` — instead of the
claimed deletion of row 0 followed by dropping the merged row, which
would give header `["c","d","e"]` and data row `["f","g","h"]`. -/
theorem c2_repair_behavior :
    midClean g2grid =
      some ⟨3, [(0, [none, none, some "Solo"]), (1, [none, some "a", some "b"]),
        (2, [some "c", some "d", some "e"]), (3, [some "f", some "g", some "h"])]⟩ ∧
    (midClean g2grid).bind repairStep =
      some ⟨3, [(0, [some "a", some "b", some "Solo"]),
        (1, [some "c", some "d", some "e"])]⟩ ∧
    cleanTables g2grid =
      some ⟨"T", [some "a", some "b", some "Solo"], [[some "c", some "d", some "e"]]⟩ :=
  ⟨by decide, by decide, by decide⟩

/-! ## C3: behaviour on a malformed (fully blank) grid -/

/-- C3 counterexample: the blank grid makes `clean_tables` raise (modelled
as `none`, an uncaught `IndexError` in `title_extraction`), and the
driver loop — which has no exception handling — aborts: with the blank
grid first, the following well-formed table is never processed, although
on its own it processes fine. -/
theorem c3_counterexample :
    cleanEmit "a.html" emptyGrid true = none ∧
    drive [("a.html", emptyGrid), ("b.html", qGrid)] = ⟨[(true, none)], true⟩ ∧
    (drive [("b.html", qGrid)]).aborted = false ∧
    (drive [("b.html", qGrid)]).calls.length = 1 :=
  ⟨by decide, by decide, by decide, by decide⟩

/-- C3 (amended): a grid reduced to zero rows after blank/empty-row
removal makes normalization fail with an uncaught error; that table
produces zero TidyRecords and the run aborts — no matter what tables
follow, none of them is processed. -/
theorem c3_abort_run (rest : List (String × List (List String))) :
    cleanEmit "a.html" emptyGrid true = none ∧
    drive (("a.html", emptyGrid) :: rest) = ⟨[(true, none)], true⟩ :=
  ⟨rfl, rfl⟩

/-! ## C7: the firstWrite flag -/

theorem driveAux_false_flags (ts : List (String × List (List String))) :
    (driveAux false ts).calls.map Prod.fst =
      List.replicate (driveAux false ts).calls.length false := by
  induction ts with
  | nil => rfl
  | cons t rest ih =>
    rcases t with ⟨fn, g⟩
    unfold driveAux
    cases hcg : cleanEmit fn g false with
    | none => rfl
    | some r => simpa [List.replicate_succ] using ih

/-- C7: the emitter truncates (`mode = 'w'`) and writes a header line
exactly when `first_run` is true, appending without a header otherwise;
and across a run the driver passes `first_run = true` to exactly one
call — the very first — and `false` to every later call it makes. -/
theorem c7_first_write (fn tl : String) (cols : List Cell) (df : DF) (b : Bool)
    (res : StoreResult) (h : storeData fn tl cols df b = some res)
    (ts : List (String × List (List String))) (hts : ts ≠ []) :
    ((res.mode = 'w' ∧ res.header = true) ↔ b = true) ∧
    (drive ts).calls.map Prod.fst =
      true :: List.replicate ((drive ts).calls.length - 1) false := by
  constructor
  · unfold storeData at h
    split at h
    · cases h
    · cases h
      cases b <;> simp
  · cases ts with
    | nil => exact absurd rfl hts
    | cons t rest =>
      rcases t with ⟨fn0, g0⟩
      unfold drive driveAux
      cases hcg : cleanEmit fn0 g0 true with
      | none => rfl
      | some r => simpa [List.replicate_succ] using driveAux_false_flags rest

/-- C7 witness: the theorem applied to an empty frame and a
single-table run. -/
theorem c7_first_write_witness :
    (((StoreResult.mk 'w' true []).mode = 'w' ∧
        (StoreResult.mk 'w' true []).header = true) ↔ true = true) ∧
    (drive [("b.html", qGrid)]).calls.map Prod.fst =
      true :: List.replicate ((drive [("b.html", qGrid)]).calls.length - 1) false :=
  c7_first_write "b.html" "T" [] ⟨0, []⟩ true (StoreResult.mk 'w' true []) rfl
    [("b.html", qGrid)] (by decide)

/-! ## C9: no mutation of the caller's frame -/

theorem getD_set_ne_zero (l : List DF) (d : DF) :
    (l.set 1 d).getD 0 default = l.getD 0 default := by
  cases l with
  | nil => rfl
  | cons x xs => cases xs <;> rfl

theorem runStages_keep (origin : DF) :
    ∀ (l : List (DF → Option DF)) (s s' : PyState),
    s.originRef = 0 → s.dfRef = 1 → s.heap.getD 0 default = origin →
    runStages l s = some s' →
    s'.originRef = 0 ∧ s'.heap.getD 0 default = origin := by
  intro l
  induction l with
  | nil =>
    intro s s' h0 _ h2 hrun
    cases hrun
    exact ⟨h0, h2⟩
  | cons f fs ih =>
    intro s s' h0 h1 h2 hrun
    unfold runStages at hrun
    rw [List.foldlM_cons] at hrun
    cases hm : mutate f s with
    | none => rw [hm] at hrun; cases hrun
    | some s1 =>
      rw [hm] at hrun
      have hs1 : s1.originRef = 0 ∧ s1.dfRef = 1 ∧ s1.heap.getD 0 default = origin := by
        unfold mutate at hm
        rcases Option.map_eq_some'.1 hm with ⟨d, _, he⟩
        rw [← he]
        refine ⟨h0, h1, ?_⟩
        show (s.heap.set s.dfRef d).getD 0 default = origin
        rw [h1, getD_set_ne_zero]
        exact h2
      exact ih s1 s' hs1.1 hs1.2.1 hs1.2.2 hrun

/-- C9: `clean_tables` never mutates its caller's frame.  In the heap
model, line 130's `copy(deep=True)` allocates a fresh object for `df`,
and every pipeline stage writes only through the `df` reference, so
whenever the pipeline completes, the object `df_origin` refers to is
exactly the frame the caller passed in. -/
theorem c9_no_mutation (origin : DF) (s' : PyState)
    (h : cleanTablesState (initState origin) = some s') :
    s'.heap.getD 0 default = origin ∧ s'.originRef = 0 := by
  unfold cleanTablesState at h
  have hkeep := runStages_keep origin stageList (copyDeep (initState origin)) s'
    rfl rfl (by rfl) h
  exact ⟨hkeep.2, hkeep.1⟩

/-- C9 witness: the pipeline run on the scenario grid leaves the origin
object untouched. -/
theorem c9_no_mutation_witness :
    ((cleanTablesState (initState (toDF qGrid))).getD
        (initState (toDF qGrid))).heap.getD 0 default = toDF qGrid :=
  (c9_no_mutation (toDF qGrid)
    ((cleanTablesState (initState (toDF qGrid))).getD (initState (toDF qGrid)))
    (by decide)).1

end HtmlTables
